import Mathlib

/-!
Shallow embedding of the `databend-meta` version-compatibility crate
(`crates/version/src/{version,feat,feature_span,spec}.rs`) and proofs about it.

Machine integers: the Rust code uses `u64` throughout.  Components are modelled
as `Nat`; `u64::MAX` is the explicit constant `U64_MAX`, and the one arithmetic
operation that can overflow a `u64` (`Version::to_digit`) reduces modulo `2^64`
as the machine does.  Fallible code (the `debug_assert!`/`assert!` calls during
`Spec::new`, the `unwrap()` calls in the two queries) is modelled with `Option`:
a `none` result means the corresponding Rust code would have panicked.
-/

namespace MetaVersion

set_option maxRecDepth 100000

/-- `u64::MAX`. -/
def U64_MAX : Nat := 18446744073709551615

/-- The modulus of `u64` arithmetic. -/
def U64_MOD : Nat := 18446744073709551616

/-- A three-component version number, from `version.rs`:
`struct Version { major: u64, minor: u64, patch: u64 }`. -/
structure Version where
  major : Nat
  minor : Nat
  patch : Nat
deriving DecidableEq, Repr

/-- `Version::new(major, minor, patch)`. -/
def Version.new (major minor patch : Nat) : Version :=
  { major := major, minor := minor, patch := patch }

/-- `Version::min()`, i.e. `0.0.0`. -/
def Version.min : Version := Version.new 0 0 0

/-- `Version::max()`, i.e. all components at `u64::MAX`. -/
def Version.max : Version := Version.new U64_MAX U64_MAX U64_MAX

/-- The strict lexicographic order on `(major, minor, patch)`.  This is the
order produced by Rust `#[derive(PartialOrd, Ord)]` on `Version`, which
compares fields in declaration order. -/
def vlt (a b : Version) : Prop :=
  a.major < b.major ∨
    (a.major = b.major ∧ (a.minor < b.minor ∨ (a.minor = b.minor ∧ a.patch < b.patch)))

/-- The non-strict lexicographic order on `(major, minor, patch)`. -/
def vle (a b : Version) : Prop :=
  a.major < b.major ∨
    (a.major = b.major ∧ (a.minor < b.minor ∨ (a.minor = b.minor ∧ a.patch ≤ b.patch)))

instance (a b : Version) : Decidable (vlt a b) := by
  unfold vlt
  exact inferInstance

instance (a b : Version) : Decidable (vle a b) := by
  unfold vle
  exact inferInstance

/-- The derived `Version < Version` comparison, as a computable Bool. -/
def verLt (a b : Version) : Bool := decide (vlt a b)

/-- The derived `Version <= Version` comparison, as a computable Bool. -/
def verLe (a b : Version) : Bool := decide (vle a b)

/-- Rust `Ord::max(self, other)`: returns `self` when `other < self`, else
`other` (so it returns `other` on ties). -/
def rustMax (a b : Version) : Version := if verLt b a then a else b

/-- `Version::to_digit`: `major * 1_000_000 + minor * 1_000 + patch` in `u64`
arithmetic, hence reduced modulo `2^64`. -/
def Version.to_digit (v : Version) : Nat :=
  (v.major * 1000000 + v.minor * 1000 + v.patch) % U64_MOD

/-- `Version::from_digit`: `(u / 1_000_000, u / 1_000 % 1_000, u % 1_000)`.
No `u64` operation here can overflow. -/
def Version.from_digit (u : Nat) : Version :=
  { major := u / 1000000, minor := u / 1000 % 1000, patch := u % 1000 }

/-! Basic facts about the version order, shared by the claim proofs below. -/

theorem verLe_refl (a : Version) : verLe a a = true := by
  obtain ⟨a1, a2, a3⟩ := a
  simp [verLe, vle]

theorem verLe_trans (a b c : Version) (h1 : verLe a b = true) (h2 : verLe b c = true) :
    verLe a c = true := by
  obtain ⟨a1, a2, a3⟩ := a
  obtain ⟨b1, b2, b3⟩ := b
  obtain ⟨c1, c2, c3⟩ := c
  simp only [verLe, vle, decide_eq_true_eq] at h1 h2 ⊢
  omega

theorem verLe_antisymm (a b : Version) (h1 : verLe a b = true) (h2 : verLe b a = true) :
    a = b := by
  obtain ⟨a1, a2, a3⟩ := a
  obtain ⟨b1, b2, b3⟩ := b
  simp only [verLe, vle, decide_eq_true_eq] at h1 h2
  simp only [Version.mk.injEq]
  omega

theorem verLe_of_verLt (a b : Version) (h : verLt a b = true) : verLe a b = true := by
  obtain ⟨a1, a2, a3⟩ := a
  obtain ⟨b1, b2, b3⟩ := b
  simp only [verLt, vlt, decide_eq_true_eq] at h
  simp only [verLe, vle, decide_eq_true_eq]
  omega

theorem verLe_of_not_verLt (a b : Version) (h : ¬ verLt b a = true) : verLe a b = true := by
  obtain ⟨a1, a2, a3⟩ := a
  obtain ⟨b1, b2, b3⟩ := b
  simp only [verLt, vlt, decide_eq_true_eq] at h
  simp only [verLe, vle, decide_eq_true_eq]
  omega

theorem verLe_rustMax_left (a b : Version) : verLe a (rustMax a b) = true := by
  unfold rustMax
  split
  · exact verLe_refl a
  · next h => exact verLe_of_not_verLt a b h

theorem verLe_rustMax_right (a b : Version) : verLe b (rustMax a b) = true := by
  unfold rustMax
  split
  · next h => exact verLe_of_verLt b a h
  · exact verLe_refl b

theorem rustMax_cases (a b : Version) : rustMax a b = a ∨ rustMax a b = b := by
  unfold rustMax
  split
  · exact Or.inl rfl
  · exact Or.inr rfl

theorem verLe_max_elim (r : Version) (h1 : verLe Version.max r = true)
    (h2 : verLe r Version.max = true) : r = Version.max :=
  verLe_antisymm r Version.max h2 h1

/-- C8 counterexample: with `u64` wrap-around semantics, the triple
`(2^63, 0, 0)` has `minor, patch ∈ [0, 999]` but does not round-trip:
`2^63 * 10^6` is a multiple of `2^64`, so the encoding is `0` and decoding
yields `(0, 0, 0)`. -/
theorem C8_counterexample :
    Version.from_digit (Version.to_digit (Version.new 9223372036854775808 0 0)) ≠
      Version.new 9223372036854775808 0 0 := by
  decide

/-- C8 (amended): the digit-encoding round-trip `from_digit (to_digit v) = v`
holds whenever `minor, patch ∈ [0, 999]` and additionally the encoded value
fits in a `u64`, i.e. `major ≤ 18446744073708`; and encoding the out-of-range
triple `(260205, 1000, 0)` and decoding yields `(260206, 0, 0)` — the
documented lossy overflow of `minor` into `major`. -/
theorem C8_roundtrip_amended (major minor patch : Nat)
    (hminor : minor ≤ 999) (hpatch : patch ≤ 999) (hmajor : major ≤ 18446744073708) :
    Version.from_digit (Version.to_digit (Version.new major minor patch)) =
      Version.new major minor patch ∧
    Version.from_digit (Version.to_digit (Version.new 260205 1000 0)) =
      Version.new 260206 0 0 := by
  constructor
  · have hX : major * 1000000 + minor * 1000 + patch < 18446744073709551616 := by omega
    simp only [Version.to_digit, Version.from_digit, Version.new, Version.mk.injEq, U64_MOD,
      Nat.mod_eq_of_lt hX]
    omega
  · decide

/-- C8 witness: the round-trip theorem applied at the concrete triple
`(260205, 1, 873)`. -/
theorem C8_roundtrip_witness :
    Version.from_digit (Version.to_digit (Version.new 260205 1 873)) =
      Version.new 260205 1 873 :=
  (C8_roundtrip_amended 260205 1 873 (by decide) (by decide) (by decide)).1

/-- C9: the derived comparison on `Version` is the total lexicographic order
on `(major, minor, patch)`: it agrees with lexicographic `<`, any two versions
are comparable, it is asymmetric and transitive, `MIN = (0,0,0)` is at or
below every version, `MAX` (all components `u64::MAX`) is at or above every
version whose components are valid `u64` values, and the sample chain
`MIN < (0,0,1) < (1,0,0) < MAX` holds. -/
theorem C9_ordering_total_lex (a b c v : Version)
    (hma : v.major ≤ U64_MAX) (hmi : v.minor ≤ U64_MAX) (hpa : v.patch ≤ U64_MAX) :
    (verLt a b = true ↔ vlt a b) ∧
    (verLt a b = true ∨ a = b ∨ verLt b a = true) ∧
    (verLt a b = true → verLt b a = false) ∧
    (verLt a b = true → verLt b c = true → verLt a c = true) ∧
    verLe Version.min v = true ∧
    verLe v Version.max = true ∧
    verLt Version.min (Version.new 0 0 1) = true ∧
    verLt (Version.new 0 0 1) (Version.new 1 0 0) = true ∧
    verLt (Version.new 1 0 0) Version.max = true := by
  obtain ⟨a1, a2, a3⟩ := a
  obtain ⟨b1, b2, b3⟩ := b
  obtain ⟨c1, c2, c3⟩ := c
  obtain ⟨v1, v2, v3⟩ := v
  simp only [U64_MAX] at hma hmi hpa
  refine ⟨?_, ?_, ?_, ?_, ?_, ?_, ?_, ?_, ?_⟩
  · simp only [verLt, decide_eq_true_eq]
  · simp only [verLt, vlt, decide_eq_true_eq, Version.mk.injEq]
    omega
  · simp only [verLt, vlt, decide_eq_true_eq, Bool.not_eq_true]
    simp only [verLt, vlt, decide_eq_false_iff_not]
    omega
  · simp only [verLt, vlt, decide_eq_true_eq]
    omega
  · simp only [verLe, vle, Version.min, Version.new, decide_eq_true_eq]
    omega
  · simp only [verLe, vle, Version.max, Version.new, U64_MAX, decide_eq_true_eq]
    omega
  · decide
  · decide
  · decide

/-- C9 witness: the ordering theorem applied at the concrete versions
`(1,2,163)`, `(1,2,164)`, `(2,0,0)` and `(260205,0,0)`. -/
theorem C9_ordering_witness :
    (verLt (Version.new 1 2 163) (Version.new 1 2 164) = true ↔
      vlt (Version.new 1 2 163) (Version.new 1 2 164)) ∧
    (verLt (Version.new 1 2 163) (Version.new 1 2 164) = true ∨
      Version.new 1 2 163 = Version.new 1 2 164 ∨
      verLt (Version.new 1 2 164) (Version.new 1 2 163) = true) ∧
    (verLt (Version.new 1 2 163) (Version.new 1 2 164) = true →
      verLt (Version.new 1 2 164) (Version.new 1 2 163) = false) ∧
    (verLt (Version.new 1 2 163) (Version.new 1 2 164) = true →
      verLt (Version.new 1 2 164) (Version.new 2 0 0) = true →
      verLt (Version.new 1 2 163) (Version.new 2 0 0) = true) ∧
    verLe Version.min (Version.new 260205 0 0) = true ∧
    verLe (Version.new 260205 0 0) Version.max = true ∧
    verLt Version.min (Version.new 0 0 1) = true ∧
    verLt (Version.new 0 0 1) (Version.new 1 0 0) = true ∧
    verLt (Version.new 1 0 0) Version.max = true :=
  C9_ordering_total_lex (Version.new 1 2 163) (Version.new 1 2 164) (Version.new 2 0 0)
    (Version.new 260205 0 0) (by decide) (by decide) (by decide)

/-- The closed feature catalog from `feat.rs` (`enum Feature`), in declaration
order. -/
inductive Feature where
  | KvApi
  | KvApiGetKv
  | KvApiMGetKv
  | KvApiListKv
  | KvReadV1
  | Transaction
  | TransactionReplyError
  | TransactionPutWithTtl
  | TransactionConditionKeysPrefix
  | TransactionOperations
  | OperationAsIs
  | Export
  | ExportV1
  | Watch
  | WatchInitialFlush
  | WatchResponseIsInit
  | MemberList
  | GetClusterStatus
  | GetClientInfo
  | PutResponseCurrent
  | FetchAddU64
  | ExpireInMillis
  | PutSequential
  | ProposedAtMs
  | FetchIncreaseU64
  | KvList
  | KvGetMany
deriving DecidableEq, Repr

/-- `Feature::all()`: every catalog member, in the fixed order of `feat.rs`. -/
def Feature.all : List Feature :=
  [Feature.KvApi,
   Feature.KvApiGetKv,
   Feature.KvApiMGetKv,
   Feature.KvApiListKv,
   Feature.KvReadV1,
   Feature.Transaction,
   Feature.TransactionReplyError,
   Feature.TransactionPutWithTtl,
   Feature.TransactionConditionKeysPrefix,
   Feature.TransactionOperations,
   Feature.OperationAsIs,
   Feature.Export,
   Feature.ExportV1,
   Feature.Watch,
   Feature.WatchInitialFlush,
   Feature.WatchResponseIsInit,
   Feature.MemberList,
   Feature.GetClusterStatus,
   Feature.GetClientInfo,
   Feature.PutResponseCurrent,
   Feature.FetchAddU64,
   Feature.ExpireInMillis,
   Feature.PutSequential,
   Feature.ProposedAtMs,
   Feature.FetchIncreaseU64,
   Feature.KvList,
   Feature.KvGetMany]

/-- The lifetime `[since, until)` of a feature, from `feature_span.rs`.
The Rust field `until` is spelled `until_` here (`until` is a Lean keyword). -/
structure FeatureSpan where
  feature : Feature
  since : Version
  until_ : Version
deriving DecidableEq, Repr

/-- `FeatureSpan::new(feature, since)`: a lifetime starting at `since` with no
end (`until = Version::max()`). -/
def FeatureSpan.new (feature : Feature) (since : Version) : FeatureSpan :=
  { feature := feature, since := since, until_ := Version.max }

/-- `FeatureSpan::is_active_at`: `self.since <= version && version < self.until`. -/
def FeatureSpan.is_active_at (f : FeatureSpan) (version : Version) : Bool :=
  verLe f.since version && verLt version f.until_

/-- C7 counterexample: the claim asserts that at `v = since` every span is
active, but the span `{since = MAX, until = MAX}` — exactly the shape of the
reserved client entries built by `Spec::new` — is not active at its own
`since`. -/
theorem C7_counterexample :
    ¬ (FeatureSpan.is_active_at
        { feature := Feature.ExportV1, since := Version.max, until_ := Version.max }
        Version.max = true) := by
  decide

/-- C7 (amended): for every span `f` and version `v`, `is_active_at` holds iff
`since <= v < until` in the lexicographic version order; at `v = until` the
feature is never active; and at `v = since` it is active provided
`since < until` (for a degenerate span such as `since = until = MAX` the
`since` edge is not active, as the counterexample shows). -/
theorem C7_is_active_at_iff (f : FeatureSpan) (v : Version) :
    (f.is_active_at v = true ↔ (vle f.since v ∧ vlt v f.until_)) ∧
    f.is_active_at f.until_ = false ∧
    (vlt f.since f.until_ → f.is_active_at f.since = true) := by
  obtain ⟨feat, ⟨s1, s2, s3⟩, ⟨u1, u2, u3⟩⟩ := f
  obtain ⟨v1, v2, v3⟩ := v
  refine ⟨?_, ?_, ?_⟩
  · simp only [FeatureSpan.is_active_at, verLe, verLt, Bool.and_eq_true, decide_eq_true_eq]
  · rw [Bool.eq_false_iff]
    intro hcontra
    simp only [FeatureSpan.is_active_at, verLe, verLt, Bool.and_eq_true, decide_eq_true_eq,
      vle, vlt, eq_self_iff_true, true_and, and_true] at hcontra
    omega
  · intro h
    simp only [vlt] at h
    simp only [FeatureSpan.is_active_at, verLe, verLt, Bool.and_eq_true, decide_eq_true_eq,
      vle, vlt, eq_self_iff_true, true_and, and_true, or_true, true_or]
    omega

/-- C7 witness: the amended theorem applied to the concrete span
`[1.2.163, 1.2.287)` of `KvApi`, with the boundary hypothesis discharged at
that input: the span is active at its own `since`. -/
theorem C7_is_active_at_witness :
    FeatureSpan.is_active_at
      { feature := Feature.KvApi, since := Version.new 1 2 163,
        until_ := Version.new 1 2 287 }
      (Version.new 1 2 163) = true :=
  (C7_is_active_at_iff
    { feature := Feature.KvApi, since := Version.new 1 2 163,
      until_ := Version.new 1 2 287 }
    (Version.new 1 2 163)).2.2 (by decide)

/-! The per-role feature mapping.  The Rust code uses a
`BTreeMap<Feature, FeatureSpan>`; only `entry().or_insert_with`, `get` and
`contains_key` are used, so an association list with the same lookup/update
semantics is a faithful model. -/

/-- A mapping from features to spans, modelling `BTreeMap<Feature, FeatureSpan>`. -/
abbrev FeatMap : Type := List (Feature × FeatureSpan)

/-- Map lookup (`BTreeMap::get`). -/
def FeatMap.get (m : FeatMap) (f : Feature) : Option FeatureSpan :=
  match m with
  | [] => none
  | (k, s) :: rest => if k = f then some s else FeatMap.get rest f

/-- Map update-or-insert, used to model `entry().or_insert_with` followed by a
field mutation. -/
def FeatMap.insert (m : FeatMap) (f : Feature) (s : FeatureSpan) : FeatMap :=
  match m with
  | [] => [(f, s)]
  | (k, v) :: rest => if k = f then (k, s) :: rest else (k, v) :: FeatMap.insert rest f s

/-- `fn add(features, feature, version)` from `spec.rs`: look up (or create
with `since = MIN, until = MAX`) the record, `debug_assert!` that
`since == MIN` and `until == MAX`, then set `since = version`.  A failed
assertion (a Rust panic) is modelled as `none`. -/
def add (features : FeatMap) (feature : Feature) (version : Version) : Option FeatMap :=
  let span := (FeatMap.get features feature).getD (FeatureSpan.new feature Version.min)
  if span.since = Version.min ∧ span.until_ = Version.max then
    some (FeatMap.insert features feature { span with since := version })
  else
    none

/-- `fn remove(features, feature, version)` from `spec.rs`: look up (or
create) the record, `debug_assert!` that `since != MIN` and `until == MAX`,
then set `until = version`.  A failed assertion is modelled as `none`. -/
def remove (features : FeatMap) (feature : Feature) (version : Version) : Option FeatMap :=
  let span := (FeatMap.get features feature).getD (FeatureSpan.new feature Version.min)
  if ¬ span.since = Version.min ∧ span.until_ = Version.max then
    some (FeatMap.insert features feature { span with until_ := version })
  else
    none

/-- Which side of the protocol an event concerns. -/
inductive Role where
  | server
  | client
deriving DecidableEq, Repr

/-- Whether a history event is an `add` or a `remove`. -/
inductive EvKind where
  | add
  | remove
deriving DecidableEq, Repr

/-- One historical mutation event `(role, kind, feature, version)`. -/
structure Ev where
  role : Role
  kind : EvKind
  feature : Feature
  version : Version
deriving DecidableEq, Repr

/-- Shorthand used below, mirroring the local `ver` helper in `Spec::new`. -/
def ver (major minor patch : Nat) : Version := Version.new major minor patch

/-- The literal historical event list of `Spec::new` (`spec.rs` lines
129-278), transcribed in the exact order of the `add`/`remove` calls on the
`srv` and `cli` maps. -/
def specHistory : List Ev :=
  [⟨Role.server, EvKind.add, Feature.OperationAsIs, ver 1 2 163⟩,
   ⟨Role.server, EvKind.add, Feature.KvApi, ver 1 2 163⟩,
   ⟨Role.server, EvKind.add, Feature.KvApiGetKv, ver 1 2 163⟩,
   ⟨Role.server, EvKind.add, Feature.KvApiMGetKv, ver 1 2 163⟩,
   ⟨Role.server, EvKind.add, Feature.KvApiListKv, ver 1 2 163⟩,
   ⟨Role.server, EvKind.add, Feature.KvReadV1, ver 1 2 163⟩,
   ⟨Role.client, EvKind.add, Feature.OperationAsIs, ver 1 2 163⟩,
   ⟨Role.client, EvKind.add, Feature.KvApi, ver 1 2 163⟩,
   ⟨Role.client, EvKind.add, Feature.KvApiGetKv, ver 1 2 163⟩,
   ⟨Role.client, EvKind.add, Feature.KvApiMGetKv, ver 1 2 163⟩,
   ⟨Role.client, EvKind.add, Feature.KvApiListKv, ver 1 2 163⟩,
   ⟨Role.client, EvKind.add, Feature.KvReadV1, ver 1 2 176⟩,
   ⟨Role.server, EvKind.add, Feature.Transaction, ver 1 2 258⟩,
   ⟨Role.server, EvKind.add, Feature.TransactionReplyError, ver 1 2 258⟩,
   ⟨Role.server, EvKind.add, Feature.TransactionPutWithTtl, ver 1 2 258⟩,
   ⟨Role.client, EvKind.add, Feature.TransactionReplyError, ver 1 2 258⟩,
   ⟨Role.server, EvKind.add, Feature.Export, ver 1 2 259⟩,
   ⟨Role.server, EvKind.add, Feature.Watch, ver 1 2 259⟩,
   ⟨Role.server, EvKind.add, Feature.MemberList, ver 1 2 259⟩,
   ⟨Role.server, EvKind.add, Feature.GetClusterStatus, ver 1 2 259⟩,
   ⟨Role.server, EvKind.add, Feature.GetClientInfo, ver 1 2 259⟩,
   ⟨Role.client, EvKind.add, Feature.Transaction, ver 1 2 259⟩,
   ⟨Role.client, EvKind.add, Feature.Export, ver 1 2 259⟩,
   ⟨Role.client, EvKind.add, Feature.Watch, ver 1 2 259⟩,
   ⟨Role.client, EvKind.add, Feature.MemberList, ver 1 2 259⟩,
   ⟨Role.client, EvKind.add, Feature.GetClusterStatus, ver 1 2 259⟩,
   ⟨Role.client, EvKind.add, Feature.GetClientInfo, ver 1 2 259⟩,
   ⟨Role.client, EvKind.remove, Feature.KvApiGetKv, ver 1 2 287⟩,
   ⟨Role.client, EvKind.remove, Feature.KvApiMGetKv, ver 1 2 287⟩,
   ⟨Role.client, EvKind.remove, Feature.KvApiListKv, ver 1 2 287⟩,
   ⟨Role.server, EvKind.add, Feature.ExportV1, ver 1 2 315⟩,
   ⟨Role.client, EvKind.add, Feature.TransactionPutWithTtl, ver 1 2 361⟩,
   ⟨Role.server, EvKind.remove, Feature.KvApiGetKv, ver 1 2 663⟩,
   ⟨Role.server, EvKind.remove, Feature.KvApiMGetKv, ver 1 2 663⟩,
   ⟨Role.server, EvKind.remove, Feature.KvApiListKv, ver 1 2 663⟩,
   ⟨Role.client, EvKind.remove, Feature.OperationAsIs, ver 1 2 663⟩,
   ⟨Role.server, EvKind.add, Feature.TransactionConditionKeysPrefix, ver 1 2 674⟩,
   ⟨Role.server, EvKind.add, Feature.TransactionOperations, ver 1 2 676⟩,
   ⟨Role.client, EvKind.remove, Feature.TransactionReplyError, ver 1 2 676⟩,
   ⟨Role.server, EvKind.add, Feature.WatchInitialFlush, ver 1 2 677⟩,
   ⟨Role.client, EvKind.add, Feature.WatchInitialFlush, ver 1 2 726⟩,
   ⟨Role.client, EvKind.add, Feature.WatchResponseIsInit, ver 1 2 726⟩,
   ⟨Role.client, EvKind.add, Feature.TransactionConditionKeysPrefix, ver 1 2 726⟩,
   ⟨Role.client, EvKind.add, Feature.TransactionOperations, ver 1 2 726⟩,
   ⟨Role.server, EvKind.add, Feature.WatchResponseIsInit, ver 1 2 736⟩,
   ⟨Role.server, EvKind.remove, Feature.TransactionReplyError, ver 1 2 755⟩,
   ⟨Role.server, EvKind.add, Feature.PutResponseCurrent, ver 1 2 756⟩,
   ⟨Role.client, EvKind.add, Feature.PutResponseCurrent, ver 1 2 756⟩,
   ⟨Role.server, EvKind.add, Feature.FetchAddU64, ver 1 2 764⟩,
   ⟨Role.server, EvKind.add, Feature.ExpireInMillis, ver 1 2 770⟩,
   ⟨Role.server, EvKind.add, Feature.PutSequential, ver 1 2 770⟩,
   ⟨Role.client, EvKind.add, Feature.FetchAddU64, ver 1 2 821⟩,
   ⟨Role.server, EvKind.add, Feature.ProposedAtMs, ver 1 2 823⟩,
   ⟨Role.client, EvKind.remove, Feature.KvApi, ver 1 2 823⟩,
   ⟨Role.server, EvKind.add, Feature.FetchIncreaseU64, ver 1 2 828⟩,
   ⟨Role.server, EvKind.add, Feature.KvList, ver 1 2 869⟩,
   ⟨Role.server, EvKind.add, Feature.KvGetMany, ver 1 2 869⟩,
   ⟨Role.client, EvKind.add, Feature.ExpireInMillis, ver 260205 0 0⟩,
   ⟨Role.client, EvKind.add, Feature.PutSequential, ver 260205 0 0⟩,
   ⟨Role.client, EvKind.add, Feature.ExportV1, Version.max⟩,
   ⟨Role.client, EvKind.add, Feature.ProposedAtMs, Version.max⟩,
   ⟨Role.client, EvKind.add, Feature.FetchIncreaseU64, Version.max⟩,
   ⟨Role.client, EvKind.add, Feature.KvList, Version.max⟩,
   ⟨Role.client, EvKind.add, Feature.KvGetMany, Version.max⟩]

/-- Applies one history event to the pair `(srv, cli)` of role maps, calling
`add` or `remove` on the map selected by the event's role. -/
def applyEv (st : FeatMap × FeatMap) (e : Ev) : Option (FeatMap × FeatMap) :=
  match e.role, e.kind with
  | Role.server, EvKind.add => (add st.1 e.feature e.version).map (fun m => (m, st.2))
  | Role.server, EvKind.remove => (remove st.1 e.feature e.version).map (fun m => (m, st.2))
  | Role.client, EvKind.add => (add st.2 e.feature e.version).map (fun m => (st.1, m))
  | Role.client, EvKind.remove => (remove st.2 e.feature e.version).map (fun m => (st.1, m))

/-- The registry from `spec.rs`: the build version plus the two per-role
feature mappings. -/
structure Spec where
  version : Version
  server_features : FeatMap
  client_features : FeatMap

/-- `Spec::assert_all_features`: every catalog feature has a record in the
mapping.  The Rust `assert!` loop is modelled as a Bool-valued check. -/
def Spec.assert_all_features (features : FeatMap) : Bool :=
  Feature.all.all (fun f => (FeatMap.get features f).isSome)

/-- `Spec::new(version)`: replay the literal event list into the two role
maps, then assert completeness against the catalog.  Any panicking assertion
along the way yields `none`. -/
def Spec.new (version : Version) : Option Spec :=
  (specHistory.foldlM applyEv ([], [])).bind (fun st =>
    if Spec.assert_all_features st.1 && Spec.assert_all_features st.2 then
      some { version := version, server_features := st.1, client_features := st.2 }
    else
      none)

/-- `Spec::min_compatible_server_version`: the maximum of `server.since` over
all features whose client span is active at the build version, starting from
`Version::min()`.  The two `unwrap()` calls are modelled by the `Option`
binds: a missing map entry would make the whole computation `none`. -/
def Spec.min_compatible_server_version (s : Spec) : Option Version :=
  Feature.all.foldlM
    (fun min_server feature => do
      let client_lt ← FeatMap.get s.client_features feature
      let server_lt ← FeatMap.get s.server_features feature
      pure (if client_lt.is_active_at s.version then rustMax min_server server_lt.since
            else min_server))
    Version.min

/-- `Spec::min_compatible_client_version`: the maximum of `client.until` over
all features whose server span is *not* active at the build version, starting
from `Version::min()`. -/
def Spec.min_compatible_client_version (s : Spec) : Option Version :=
  Feature.all.foldlM
    (fun min_client feature => do
      let client_lt ← FeatMap.get s.client_features feature
      let server_lt ← FeatMap.get s.server_features feature
      pure (if ! server_lt.is_active_at s.version then rustMax min_client client_lt.until_
            else min_client))
    Version.min

/-- `MIN_CLIENT_VERSION` from `lib.rs`. -/
def MIN_CLIENT_VERSION : Version := Version.new 1 2 676

/-- `MIN_SERVER_VERSION` from `lib.rs`. -/
def MIN_SERVER_VERSION : Version := Version.new 1 2 770

/-- The pair of role maps produced by replaying the literal event list. -/
def builtMaps : FeatMap × FeatMap :=
  (specHistory.foldlM applyEv ([], [])).getD ([], [])

/-- The registry `Spec::new(v)` actually builds, for an arbitrary build
version `v`: the literal replayed maps together with `v`. -/
def mkSpecAt (v : Version) : Spec :=
  { version := v, server_features := builtMaps.1, client_features := builtMaps.2 }

/-- Replaying the literal history never panics and passes the completeness
check, so `Spec::new(v)` succeeds and returns `mkSpecAt v`, whatever the
build version `v` is. -/
theorem spec_new_eq (v : Version) : Spec.new v = some (mkSpecAt v) := rfl

/-- C3: for the registry built at the current build version `260205.0.0`,
`min_compatible_server_version()` equals the published constant
`MIN_SERVER_VERSION = 1.2.770` and `min_compatible_client_version()` equals
the published constant `MIN_CLIENT_VERSION = 1.2.676`. -/
theorem C3_regression_guard :
    Spec.new (Version.new 260205 0 0) = some (mkSpecAt (Version.new 260205 0 0)) ∧
    Spec.min_compatible_server_version (mkSpecAt (Version.new 260205 0 0)) =
      some MIN_SERVER_VERSION ∧
    Spec.min_compatible_client_version (mkSpecAt (Version.new 260205 0 0)) =
      some MIN_CLIENT_VERSION ∧
    MIN_SERVER_VERSION = Version.new 1 2 770 ∧
    MIN_CLIENT_VERSION = Version.new 1 2 676 :=
  ⟨rfl, rfl, rfl, rfl, rfl⟩

/-- The subsequence of history events that concern one `(role, feature)`
pair, in replay order. -/
def eventsFor (role : Role) (f : Feature) : List (EvKind × Version) :=
  specHistory.filterMap (fun e =>
    if e.role = role ∧ e.feature = f then some (e.kind, e.version) else none)

/-- A well-formed per-pair event sequence: nothing, a single `add`, or an
`add` followed by a single `remove` at a strictly later version. -/
def wellFormedEvents : List (EvKind × Version) → Bool
  | [] => true
  | [(EvKind.add, _)] => true
  | [(EvKind.add, v), (EvKind.remove, w)] => verLt v w
  | _ => false

/-- C4: the literal history is well-formed: for every `(role, feature)` pair
the applicable events are an `add` possibly followed by one strictly later
`remove` (so the first event is an add, there is at most one add and one
remove, and a remove comes strictly after the add); consequently the replay
runs to completion with no `debug_assert!` in `add`/`remove` firing. -/
theorem C4_history_well_formed :
    ([Role.server, Role.client].all
      (fun r => Feature.all.all (fun f => wellFormedEvents (eventsFor r f))) = true) ∧
    (specHistory.foldlM applyEv ([], [])).isSome = true :=
  ⟨rfl, rfl⟩

/-- C5: after construction both role mappings contain an entry for every
member of the feature catalog: the completeness check of `Spec::new` passes
for the literal event list, at any build version. -/
theorem C5_completeness (v : Version) :
    ∃ sp, Spec.new v = some sp ∧
      Spec.assert_all_features sp.server_features = true ∧
      Spec.assert_all_features sp.client_features = true :=
  ⟨mkSpecAt v, rfl, rfl, rfl⟩

/-- C6: on the registry built by `Spec::new` the two compatibility queries
are total: whatever the build version, neither query ever hits a missing map
entry, so both return a value (`isSome`) rather than the `none` that models a
panicking `unwrap()`. -/
theorem C6_queries_total (v : Version) (sp : Spec) (h : Spec.new v = some sp) :
    (Spec.min_compatible_server_version sp).isSome = true ∧
    (Spec.min_compatible_client_version sp).isSome = true := by
  rw [spec_new_eq] at h
  injection h with h
  subst h
  exact ⟨rfl, rfl⟩

/-- C6 witness: the totality theorem applied to the registry built at the
concrete version `260205.0.0`, with the construction hypothesis discharged by
computation. -/
theorem C6_queries_total_witness :
    (Spec.min_compatible_server_version (mkSpecAt (Version.new 260205 0 0))).isSome = true ∧
    (Spec.min_compatible_client_version (mkSpecAt (Version.new 260205 0 0))).isSome = true :=
  C6_queries_total (Version.new 260205 0 0) (mkSpecAt (Version.new 260205 0 0)) rfl

/-- A `get` that returns a span means the binding is stored in the map. -/
theorem FeatMap.get_mem (m : FeatMap) (f : Feature) (s : FeatureSpan)
    (h : FeatMap.get m f = some s) : (f, s) ∈ m := by
  induction m with
  | nil => simp [FeatMap.get] at h
  | cons p rest ih =>
    obtain ⟨k, v⟩ := p
    rw [FeatMap.get] at h
    split at h
    · next heq =>
      injection h with h
      subst h
      subst heq
      exact List.mem_cons_self _ _
    · exact List.mem_cons_of_mem _ (ih h)

theorem bool_eq_false_of_not_true {b : Bool} (h : (!b) = true) : b = false := by
  cases b
  · rfl
  · simp at h

/-- The shape shared by the two compatibility queries: a fold over a feature
list that looks up each feature in two maps and, whenever a condition on the
two spans holds, raises the accumulator to a candidate version with Rust's
`Ord::max`.  When the fold returns a result it is an upper bound of the
starting value and of every candidate, and it is either the starting value or
one of the candidates — i.e. it is the maximum of the candidates and the
starting value. -/
theorem foldMax_spec (getc gets : Feature → Option FeatureSpan)
    (cond : FeatureSpan → FeatureSpan → Bool) (val : FeatureSpan → FeatureSpan → Version)
    (l : List Feature) :
    ∀ (init r : Version),
      l.foldlM (fun acc f => do
          let cl ← getc f
          let sv ← gets f
          pure (if cond cl sv then rustMax acc (val cl sv) else acc)) init = some r →
      verLe init r = true ∧
      (∀ f ∈ l, ∀ cl sv, getc f = some cl → gets f = some sv → cond cl sv = true →
        verLe (val cl sv) r = true) ∧
      (r = init ∨ ∃ f ∈ l, ∃ cl sv, getc f = some cl ∧ gets f = some sv ∧
        cond cl sv = true ∧ r = val cl sv) := by
  induction l with
  | nil =>
    intro init r h
    rw [List.foldlM_nil] at h
    injection h with h
    subst h
    exact ⟨verLe_refl init, fun f hf => absurd hf (List.not_mem_nil f), Or.inl rfl⟩
  | cons f fs ih =>
    intro init r h
    rw [List.foldlM_cons] at h
    cases hc : getc f with
    | none =>
      rw [hc] at h
      simp at h
    | some cl =>
      cases hs : gets f with
      | none =>
        rw [hc, hs] at h
        simp at h
      | some sv =>
        rw [hc, hs] at h
        have h' : fs.foldlM (fun acc g => do
            let cl ← getc g
            let sv ← gets g
            pure (if cond cl sv then rustMax acc (val cl sv) else acc))
            (if cond cl sv then rustMax init (val cl sv) else init) = some r := h
        by_cases hcond : cond cl sv = true
        · rw [if_pos hcond] at h'
          obtain ⟨h1, h2, h3⟩ := ih (rustMax init (val cl sv)) r h'
          refine ⟨verLe_trans _ _ _ (verLe_rustMax_left init (val cl sv)) h1, ?_, ?_⟩
          · intro g hg cl' sv' hc' hs' hcond'
            rcases List.mem_cons.mp hg with hg | hg
            · subst hg
              rw [hc] at hc'
              injection hc' with e
              subst e
              rw [hs] at hs'
              injection hs' with e
              subst e
              exact verLe_trans _ _ _ (verLe_rustMax_right init _) h1
            · exact h2 g hg cl' sv' hc' hs' hcond'
          · rcases h3 with h3 | ⟨g, hg, cl', sv', hc', hs', hcond', hval⟩
            · rcases rustMax_cases init (val cl sv) with hm | hm
              · exact Or.inl (h3.trans hm)
              · exact Or.inr ⟨f, List.mem_cons_self f fs, cl, sv, hc, hs, hcond, h3.trans hm⟩
            · exact Or.inr ⟨g, List.mem_cons_of_mem f hg, cl', sv', hc', hs', hcond', hval⟩
        · rw [if_neg hcond] at h'
          obtain ⟨h1, h2, h3⟩ := ih init r h'
          refine ⟨h1, ?_, ?_⟩
          · intro g hg cl' sv' hc' hs' hcond'
            rcases List.mem_cons.mp hg with hg | hg
            · subst hg
              rw [hc] at hc'
              injection hc' with e
              subst e
              rw [hs] at hs'
              injection hs' with e
              subst e
              exact absurd hcond' hcond
            · exact h2 g hg cl' sv' hc' hs' hcond'
          · rcases h3 with h3 | ⟨g, hg, cl', sv', hc', hs', hcond', hval⟩
            · exact Or.inl h3
            · exact Or.inr ⟨g, List.mem_cons_of_mem f hg, cl', sv', hc', hs', hcond', hval⟩

/-- C1: for the constructed registry with stored current version `v`,
`min_compatible_server_version` returns the maximum, over the catalog
features whose client span is active at `v`, of the server span's `since`:
the result bounds every such candidate from above, is itself `MIN` or one of
the candidates, and is `MIN` whenever no client span is active at `v`. -/
theorem C1_min_server_is_max_of_active_since (v : Version) (sp : Spec)
    (h : Spec.new v = some sp) :
    ∃ r, Spec.min_compatible_server_version sp = some r ∧
      (∀ f ∈ Feature.all, ∀ cl sv, FeatMap.get sp.client_features f = some cl →
        FeatMap.get sp.server_features f = some sv →
        FeatureSpan.is_active_at cl v = true → verLe sv.since r = true) ∧
      (r = Version.min ∨ ∃ f ∈ Feature.all, ∃ cl sv,
        FeatMap.get sp.client_features f = some cl ∧
        FeatMap.get sp.server_features f = some sv ∧
        FeatureSpan.is_active_at cl v = true ∧ r = sv.since) ∧
      ((∀ f ∈ Feature.all, ∀ cl, FeatMap.get sp.client_features f = some cl →
        FeatureSpan.is_active_at cl v = false) → r = Version.min) := by
  rw [spec_new_eq] at h
  injection h with h
  subst h
  have hsome : (Spec.min_compatible_server_version (mkSpecAt v)).isSome = true := rfl
  obtain ⟨r, hr⟩ := Option.isSome_iff_exists.mp hsome
  obtain ⟨_, h2, h3⟩ := foldMax_spec
    (fun f => FeatMap.get (mkSpecAt v).client_features f)
    (fun f => FeatMap.get (mkSpecAt v).server_features f)
    (fun cl _ => FeatureSpan.is_active_at cl (mkSpecAt v).version)
    (fun _ sv => sv.since) Feature.all Version.min r hr
  refine ⟨r, hr, h2, h3, ?_⟩
  intro hnone
  rcases h3 with h3 | ⟨f, hf, cl, sv, hc, hs, hcond, _⟩
  · exact h3
  · have hcv : FeatureSpan.is_active_at cl v = true := hcond
    rw [hnone f hf cl hc] at hcv
    exact Bool.noConfusion hcv

/-- C1 witness: at the build version `260205.0.0` the construction hypothesis
holds by computation and the query returns a value with the stated maximum
properties. -/
theorem C1_min_server_witness :
    ∃ r, Spec.min_compatible_server_version (mkSpecAt (Version.new 260205 0 0)) = some r :=
  match C1_min_server_is_max_of_active_since (Version.new 260205 0 0)
      (mkSpecAt (Version.new 260205 0 0)) rfl with
  | ⟨r, hr, _, _, _⟩ => ⟨r, hr⟩

/-- C2: for the constructed registry with stored current version `v`,
`min_compatible_client_version` returns the maximum, over the catalog
features whose server span is *not* active at `v`, of the client span's
`until`: the result bounds every such candidate from above, is itself `MIN`
or one of the candidates, is `MIN` whenever every server span is active at
`v`, and is `MAX` as soon as some feature has an inactive server span while
its client `until` is still `MAX`. -/
theorem C2_min_client_is_max_of_inactive_until (v : Version) (sp : Spec)
    (h : Spec.new v = some sp) :
    ∃ r, Spec.min_compatible_client_version sp = some r ∧
      (∀ f ∈ Feature.all, ∀ cl sv, FeatMap.get sp.client_features f = some cl →
        FeatMap.get sp.server_features f = some sv →
        FeatureSpan.is_active_at sv v = false → verLe cl.until_ r = true) ∧
      (r = Version.min ∨ ∃ f ∈ Feature.all, ∃ cl sv,
        FeatMap.get sp.client_features f = some cl ∧
        FeatMap.get sp.server_features f = some sv ∧
        FeatureSpan.is_active_at sv v = false ∧ r = cl.until_) ∧
      ((∀ f ∈ Feature.all, ∀ sv, FeatMap.get sp.server_features f = some sv →
        FeatureSpan.is_active_at sv v = true) → r = Version.min) ∧
      (∀ f ∈ Feature.all, ∀ cl sv, FeatMap.get sp.client_features f = some cl →
        FeatMap.get sp.server_features f = some sv →
        FeatureSpan.is_active_at sv v = false → cl.until_ = Version.max →
        r = Version.max) := by
  rw [spec_new_eq] at h
  injection h with h
  subst h
  have hsome : (Spec.min_compatible_client_version (mkSpecAt v)).isSome = true := rfl
  obtain ⟨r, hr⟩ := Option.isSome_iff_exists.mp hsome
  obtain ⟨_, h2, h3⟩ := foldMax_spec
    (fun f => FeatMap.get (mkSpecAt v).client_features f)
    (fun f => FeatMap.get (mkSpecAt v).server_features f)
    (fun _ sv => ! FeatureSpan.is_active_at sv (mkSpecAt v).version)
    (fun cl _ => cl.until_) Feature.all Version.min r hr
  have h2' : ∀ f ∈ Feature.all, ∀ cl sv,
      FeatMap.get (mkSpecAt v).client_features f = some cl →
      FeatMap.get (mkSpecAt v).server_features f = some sv →
      FeatureSpan.is_active_at sv v = false → verLe cl.until_ r = true := by
    intro f hf cl sv hc hs hfalse
    refine h2 f hf cl sv hc hs ?_
    show (! FeatureSpan.is_active_at sv v) = true
    simp [hfalse]
  have h3' : r = Version.min ∨ ∃ f ∈ Feature.all, ∃ cl sv,
      FeatMap.get (mkSpecAt v).client_features f = some cl ∧
      FeatMap.get (mkSpecAt v).server_features f = some sv ∧
      FeatureSpan.is_active_at sv v = false ∧ r = cl.until_ := by
    rcases h3 with h3 | ⟨f, hf, cl, sv, hc, hs, hcond, hval⟩
    · exact Or.inl h3
    · exact Or.inr ⟨f, hf, cl, sv, hc, hs, bool_eq_false_of_not_true hcond, hval⟩
  refine ⟨r, hr, h2', h3', ?_, ?_⟩
  · intro hall
    rcases h3' with h3' | ⟨f, hf, cl, sv, _, hs, hfalse, _⟩
    · exact h3'
    · rw [hall f hf sv hs] at hfalse
      exact Bool.noConfusion hfalse
  · intro f hf cl sv hc hs hfalse hmax
    have hge : verLe Version.max r = true := by
      have := h2' f hf cl sv hc hs hfalse
      rw [hmax] at this
      exact this
    have hle : verLe r Version.max = true := by
      rcases h3' with h3' | ⟨g, hg, cl', sv', hc', hs', _, hval⟩
      · rw [h3'] at hge
        exact absurd hge (by decide)
      · have hc'' : FeatMap.get builtMaps.2 g = some cl' := hc'
        have hmem := FeatMap.get_mem builtMaps.2 g cl' hc''
        have hall : ∀ p ∈ builtMaps.2,
            verLe (Prod.snd p).until_ Version.max = true := by decide
        rw [hval]
        exact hall (g, cl') hmem
    exact verLe_antisymm r Version.max hle hge

/-- C2 witness: at the build version `260205.0.0` the construction hypothesis
holds by computation and the query returns a value with the stated maximum
properties. -/
theorem C2_min_client_witness :
    ∃ r, Spec.min_compatible_client_version (mkSpecAt (Version.new 260205 0 0)) = some r :=
  match C2_min_client_is_max_of_inactive_until (Version.new 260205 0 0)
      (mkSpecAt (Version.new 260205 0 0)) rfl with
  | ⟨r, hr, _, _, _, _⟩ => ⟨r, hr⟩

/-- A span whose `since` and `until` are both `Version::max()` is active at
no version at all: activity would need `MAX <= v` and `v < MAX` at once. -/
theorem span_with_max_since_inactive (feat : Feature) (v : Version) :
    FeatureSpan.is_active_at
      { feature := feat, since := Version.max, until_ := Version.max } v = false := by
  obtain ⟨v1, v2, v3⟩ := v
  rw [Bool.eq_false_iff]
  intro hcontra
  simp only [FeatureSpan.is_active_at, verLe, verLt, Bool.and_eq_true, decide_eq_true_eq,
    vle, vlt, Version.max, Version.new, U64_MAX, eq_self_iff_true, true_and, and_true] at hcontra
  omega

/-- C10: the reservation sentinel works: a span with `since = until = MAX` is
active at no version whatsoever, and in the constructed registry each of the
five reserved client entries (`ExportV1`, `ProposedAtMs`, `FetchIncreaseU64`,
`KvList`, `KvGetMany`) is exactly such a span, hence never satisfies the
`is_active_at` guard of `min_compatible_server_version` and contributes no
candidate at any current version. -/
theorem C10_reserved_entries_never_active (feat : Feature) (v w : Version) (sp : Spec)
    (h : Spec.new w = some sp) (f : Feature)
    (hf : f ∈ [Feature.ExportV1, Feature.ProposedAtMs, Feature.FetchIncreaseU64,
      Feature.KvList, Feature.KvGetMany])
    (cl : FeatureSpan) (hcl : FeatMap.get sp.client_features f = some cl) :
    FeatureSpan.is_active_at
      { feature := feat, since := Version.max, until_ := Version.max } v = false ∧
    cl.since = Version.max ∧ cl.until_ = Version.max ∧
    FeatureSpan.is_active_at cl v = false := by
  rw [spec_new_eq] at h
  injection h with h
  subst h
  have hres : ∀ g ∈ [Feature.ExportV1, Feature.ProposedAtMs, Feature.FetchIncreaseU64,
      Feature.KvList, Feature.KvGetMany],
      FeatMap.get builtMaps.2 g =
        some { feature := g, since := Version.max, until_ := Version.max } := by
    decide
  have hcl' : FeatMap.get builtMaps.2 f = some cl := hcl
  rw [hres f hf] at hcl'
  injection hcl' with e
  subst e
  exact ⟨span_with_max_since_inactive feat v, rfl, rfl,
    span_with_max_since_inactive f v⟩

/-- C10 witness: the theorem applied with the registry built at `260205.0.0`,
the reserved feature `ExportV1` and the probe version `1.2.163`; all
hypotheses are discharged by computation. -/
theorem C10_reserved_witness :
    FeatureSpan.is_active_at
      { feature := Feature.KvApi, since := Version.max, until_ := Version.max }
      (Version.new 1 2 163) = false ∧
    FeatureSpan.since
      { feature := Feature.ExportV1, since := Version.max, until_ := Version.max } =
      Version.max ∧
    FeatureSpan.until_
      { feature := Feature.ExportV1, since := Version.max, until_ := Version.max } =
      Version.max ∧
    FeatureSpan.is_active_at
      { feature := Feature.ExportV1, since := Version.max, until_ := Version.max }
      (Version.new 1 2 163) = false :=
  C10_reserved_entries_never_active Feature.KvApi (Version.new 1 2 163)
    (Version.new 260205 0 0) (mkSpecAt (Version.new 260205 0 0)) rfl
    Feature.ExportV1 (by decide)
    { feature := Feature.ExportV1, since := Version.max, until_ := Version.max } rfl

end MetaVersion
